import Mathlib

/-!
Verification development for the chopd local development reverse proxy.

The definitions below are a shallow embedding of the proxy's request
pipeline: the identity-resolution middleware (src/middleware/auth.js),
the single-slot serialization queue for mutating methods
(src/middleware/request-queue.js), the queued-request handler, and the
built-in control endpoints (login, report-context, logs) of the
/_chopin router.  JavaScript objects used as string-keyed maps are
modelled as association lists; code between two await points runs
atomically on the event loop, so the queue is modelled as a small-step
transition system whose events are the atomic blocks (request arrival,
handler completion).
-/

namespace Chopd

/-! ## Association-list maps (JavaScript objects / Map) -/

/-- Lookup in a string-keyed association list (JS property read). -/
def aget {α : Type} (h : List (String × α)) (k : String) : Option α :=
  (h.find? (fun p => p.1 == k)).map (fun p => p.2)

/-- JS property write: replace the value if the key is present, else append. -/
def aset {α : Type} (h : List (String × α)) (k : String) (v : α) : List (String × α) :=
  match h.find? (fun p => p.1 == k) with
  | some _ => h.map (fun p => if p.1 == k then (k, v) else p)
  | none => h ++ [(k, v)]

/-- JS property delete. -/
def adel {α : Type} (h : List (String × α)) (k : String) : List (String × α) :=
  h.filter (fun p => p.1 != k)

theorem find?_map_replace {α : Type} (t : List (String × α)) (k : String) (v : α) :
    List.find? (fun p => p.1 == k) (t.map (fun p => if p.1 == k then (k, v) else p))
      = (List.find? (fun p => p.1 == k) t).map (fun _ => (k, v)) := by
  induction t with
  | nil => simp
  | cons a t ih =>
    by_cases ha : a.1 = k
    · have ha' : (a.1 == k) = true := by simp [ha]
      have e1 : List.find? (fun p => p.1 == k)
          ((k, v) :: t.map (fun p => if p.1 == k then (k, v) else p)) = some (k, v) :=
        List.find?_cons_of_pos _ (by simp)
      have e2 : List.find? (fun p => p.1 == k) (a :: t) = some a :=
        List.find?_cons_of_pos _ ha'
      rw [List.map_cons, if_pos ha', e1, e2]
      rfl
    · have ha' : (a.1 == k) = false := beq_false_of_ne ha
      have e1 : List.find? (fun p => p.1 == k)
          (a :: t.map (fun p => if p.1 == k then (k, v) else p))
          = List.find? (fun p => p.1 == k) (t.map (fun p => if p.1 == k then (k, v) else p)) :=
        List.find?_cons_of_neg _ (by simp [ha'])
      have e2 : List.find? (fun p => p.1 == k) (a :: t) = List.find? (fun p => p.1 == k) t :=
        List.find?_cons_of_neg _ (by simp [ha'])
      rw [List.map_cons, if_neg (by simp [ha']), e1, e2, ih]

theorem find?_map_replace_other {α : Type} (t : List (String × α)) (k k' : String) (v : α)
    (hne : k ≠ k') :
    List.find? (fun p => p.1 == k) (t.map (fun p => if p.1 == k' then (k', v) else p))
      = List.find? (fun p => p.1 == k) t := by
  induction t with
  | nil => simp
  | cons a t ih =>
    by_cases ha : a.1 = k'
    · have ha' : (a.1 == k') = true := by simp [ha]
      have hak : (a.1 == k) = false := beq_false_of_ne (by rw [ha]; exact Ne.symm hne)
      have hk'k : (k' == k) = false := beq_false_of_ne (Ne.symm hne)
      have e1 : List.find? (fun p => p.1 == k)
          ((k', v) :: t.map (fun p => if p.1 == k' then (k', v) else p))
          = List.find? (fun p => p.1 == k) (t.map (fun p => if p.1 == k' then (k', v) else p)) :=
        List.find?_cons_of_neg _ (by simp [hk'k])
      have e2 : List.find? (fun p => p.1 == k) (a :: t) = List.find? (fun p => p.1 == k) t :=
        List.find?_cons_of_neg _ (by simp [hak])
      rw [List.map_cons, if_pos ha', e1, e2, ih]
    · have ha' : (a.1 == k') = false := beq_false_of_ne ha
      by_cases hak : a.1 = k
      · have hak' : (a.1 == k) = true := by simp [hak]
        have e1 : List.find? (fun p => p.1 == k)
            (a :: t.map (fun p => if p.1 == k' then (k', v) else p)) = some a :=
          List.find?_cons_of_pos _ hak'
        have e2 : List.find? (fun p => p.1 == k) (a :: t) = some a :=
          List.find?_cons_of_pos _ hak'
        rw [List.map_cons, if_neg (by simp [ha']), e1, e2]
      · have hak' : (a.1 == k) = false := beq_false_of_ne hak
        have e1 : List.find? (fun p => p.1 == k)
            (a :: t.map (fun p => if p.1 == k' then (k', v) else p))
            = List.find? (fun p => p.1 == k) (t.map (fun p => if p.1 == k' then (k', v) else p)) :=
          List.find?_cons_of_neg _ (by simp [hak'])
        have e2 : List.find? (fun p => p.1 == k) (a :: t) = List.find? (fun p => p.1 == k) t :=
          List.find?_cons_of_neg _ (by simp [hak'])
        rw [List.map_cons, if_neg (by simp [ha']), e1, e2, ih]

theorem aget_aset_same {α : Type} (h : List (String × α)) (k : String) (v : α) :
    aget (aset h k v) k = some v := by
  cases hf : (h.find? (fun p => p.1 == k)) with
  | some p =>
    unfold aget
    simp only [aset, hf, find?_map_replace]
    rfl
  | none =>
    unfold aget
    simp only [aset, hf]
    rw [List.find?_append, hf]
    simp

theorem aget_aset_other {α : Type} (h : List (String × α)) (k k' : String) (v : α)
    (hne : k ≠ k') : aget (aset h k' v) k = aget h k := by
  cases hf : (h.find? (fun p => p.1 == k')) with
  | some p =>
    unfold aget
    simp only [aset, hf, find?_map_replace_other h k k' v hne]
  | none =>
    unfold aget
    simp only [aset, hf]
    rw [List.find?_append]
    cases hfk : List.find? (fun p => p.1 == k) h with
    | some q => simp
    | none =>
      have hk'k : (k' == k) = false := beq_false_of_ne (Ne.symm hne)
      simp [List.find?, hk'k]

theorem aget_adel_same {α : Type} (h : List (String × α)) (k : String) :
    aget (adel h k) k = none := by
  unfold aget adel
  induction h with
  | nil => simp
  | cons a t ih =>
    by_cases ha : a.1 = k
    · have h1 : (a.1 != k) = false := by simp [bne, ha]
      simp only [List.filter_cons, h1, Bool.false_eq_true, if_false]
      exact ih
    · have h1 : (a.1 != k) = true := by simp [bne, beq_false_of_ne ha]
      have hak : (a.1 == k) = false := beq_false_of_ne ha
      have e1 : List.find? (fun p => p.1 == k) (a :: t.filter (fun p => p.1 != k))
          = List.find? (fun p => p.1 == k) (t.filter (fun p => p.1 != k)) :=
        List.find?_cons_of_neg _ (by simp [hak])
      simp only [List.filter_cons, h1, if_true, e1]
      exact ih

theorem aget_adel_other {α : Type} (h : List (String × α)) (k k' : String)
    (hne : k ≠ k') : aget (adel h k') k = aget h k := by
  unfold aget adel
  induction h with
  | nil => simp
  | cons a t ih =>
    by_cases ha : a.1 = k'
    · have h1 : (a.1 != k') = false := by simp [bne, ha]
      have hak : (a.1 == k) = false := beq_false_of_ne (by rw [ha]; exact Ne.symm hne)
      have e2 : List.find? (fun p => p.1 == k) (a :: t) = List.find? (fun p => p.1 == k) t :=
        List.find?_cons_of_neg _ (by simp [hak])
      simp only [List.filter_cons, h1, Bool.false_eq_true, if_false, e2]
      exact ih
    · have h1 : (a.1 != k') = true := by simp [bne, beq_false_of_ne ha]
      by_cases hak : a.1 = k
      · have hak' : (a.1 == k) = true := by simp [hak]
        have e1 : List.find? (fun p => p.1 == k) (a :: t.filter (fun p => p.1 != k'))
            = some a := List.find?_cons_of_pos _ hak'
        have e2 : List.find? (fun p => p.1 == k) (a :: t) = some a :=
          List.find?_cons_of_pos _ hak'
        simp only [List.filter_cons, h1, if_true, e1, e2]
      · have hak' : (a.1 == k) = false := beq_false_of_ne hak
        have e1 : List.find? (fun p => p.1 == k) (a :: t.filter (fun p => p.1 != k'))
            = List.find? (fun p => p.1 == k) (t.filter (fun p => p.1 != k')) :=
          List.find?_cons_of_neg _ (by simp [hak'])
        have e2 : List.find? (fun p => p.1 == k) (a :: t) = List.find? (fun p => p.1 == k) t :=
          List.find?_cons_of_neg _ (by simp [hak'])
        simp only [List.filter_cons, h1, if_true, e1, e2]
        exact ih

/-- Header maps: Node lowercases incoming header names, so keys are the
lowercase header names. -/
abbrev HeaderMap := List (String × String)

/-! ## Body sizes

The raw-body library counts bytes; a UTF-8 string occupies the sum of its
characters' UTF-8 encoding sizes. -/

/-- Byte length of a string under UTF-8, the count against which the
raw-body size limits of the source are checked. -/
def byteLength (s : String) : Nat :=
  s.data.foldr (fun c n => c.utf8Size + n) 0

/-! ## JS string primitives, on character lists -/

/-- JS String.prototype.startsWith. -/
def strStartsWith (s pre : String) : Bool :=
  s.data.take pre.data.length == pre.data

/-- JS String.prototype.substring from a character index to the end. -/
def strDrop (s : String) (n : Nat) : String := String.mk (s.data.drop n)

/-- JS String.prototype.toUpperCase, for the ASCII strings involved. -/
def strToUpper (s : String) : String := String.mk (s.data.map Char.toUpper)

/-- JS String.prototype.toLowerCase, for the ASCII strings involved. -/
def strToLower (s : String) : String := String.mk (s.data.map Char.toLower)

/-- The request-queue handler's body cap: raw-body limit 2mb
(src/middleware/request-queue.js line 31). -/
def bodyLimit2mb : Nat := 2097152

/-- The report-context body cap: raw-body limit 1mb (readRawString). -/
def bodyLimit1mb : Nat := 1048576

theorem byteLength_replicate_a (n : Nat) :
    byteLength (String.mk (List.replicate n 'a')) = n := by
  unfold byteLength
  induction n with
  | zero => rfl
  | succ m ih =>
    simp only [List.replicate_succ, List.foldr_cons] at *
    rw [ih]
    have ha : 'a'.utf8Size = 1 := by decide
    rw [ha]
    omega

/-! ## Identity resolver (src/middleware/auth.js)

The middleware mutates req.headers in place: a dev-address cookie writes
x-address, then a valid Bearer token with a sub claim writes x-address.
The jsonwebtooken verification of the unsigned token is an external
library call, abstracted as a function from the token text to the sub
claim it yields (none when verification fails or the payload has no sub
claim). -/

/-- The identity middleware of src/middleware/auth.js, as a function on
the request's header map.  cookieDevAddress is the parsed dev-address
cookie; verifySub abstracts jwt.verify of the alg none token plus the
decoded.sub truthiness check. -/
def authMiddleware (cookieDevAddress : Option String)
    (verifySub : String → Option String) (headers : HeaderMap) : HeaderMap :=
  let h1 := match cookieDevAddress with
    | some a => aset headers "x-address" a
    | none => headers
  match aget h1 "authorization" with
  | some ah =>
    if strStartsWith ah "Bearer " then
      match verifySub (strDrop ah 7) with
      | some sub => aset h1 "x-address" sub
      | none => h1
    else h1
  | none => h1

/-- The token-derived address: the sub claim of a well-formed Bearer
authorization header, if any.  Reading it off the incoming header map is
equivalent to reading it after the cookie step, since the cookie step
only writes x-address. -/
def bearerSub (verifySub : String → Option String) (headers : HeaderMap) : Option String :=
  match aget headers "authorization" with
  | some ah =>
    if strStartsWith ah "Bearer " then verifySub (strDrop ah 7) else none
  | none => none

/-! ## Serialization queue (src/middleware/request-queue.js)

JavaScript runs each synchronous block atomically; the queue state
changes only at request arrival (requestQueueMiddleware) and at handler
completion (the synchronous tail of handleQueuedRequest, or the catch
continuation installed by requestQueueMiddleware).  States record the
isProcessing flag, the requestQueue of waiting tasks, and the set of
handler tasks that have been started and have not yet completed.
Requests are identified by numbers. -/

structure QueueState where
  isProcessing : Bool
  requestQueue : List Nat
  running : List Nat
deriving Repr, DecidableEq

/-- Initial queue state: isProcessing = false, empty queue, nothing running. -/
def initQueue : QueueState := ⟨false, [], []⟩

/-- processNext (src/middleware/request-queue.js lines 15 to 22): pop and
start the next waiter if any, otherwise clear isProcessing.  Starting a
waiter does not touch isProcessing. -/
def processNext (s : QueueState) : QueueState :=
  match s.requestQueue with
  | fn :: rest => { s with requestQueue := rest, running := s.running ++ [fn] }
  | [] => { s with isProcessing := false }

/-- requestQueueMiddleware admission (lines 114 to 119): if isProcessing
is false, set it and start the handler immediately; otherwise push the
task at the tail of requestQueue. -/
def requestQueueAdmit (s : QueueState) (r : Nat) : QueueState :=
  if s.isProcessing then
    { s with requestQueue := s.requestQueue ++ [r] }
  else
    { s with isProcessing := true, running := s.running ++ [r] }

/-- Atomic events of the queue: arrival of a mutating request, successful
handler completion (which ends in processNext), and failed handler
completion (the catch handler, which sets isProcessing to false and then
calls processNext). -/
inductive QEvent where
  | arrive (r : Nat)
  | finishOk (r : Nat)
  | finishErr (r : Nat)
deriving Repr, DecidableEq

/-- One atomic step of the queue.  A completion event for a task that is
not running is a no-op (it cannot occur physically). -/
def qstep (s : QueueState) (e : QEvent) : QueueState :=
  match e with
  | .arrive r => requestQueueAdmit s r
  | .finishOk r =>
    if r ∈ s.running then processNext { s with running := s.running.erase r } else s
  | .finishErr r =>
    if r ∈ s.running then
      processNext { s with running := s.running.erase r, isProcessing := false }
    else s

/-- Execution of the queue from the initial state over a list of events. -/
def runTrace (es : List QEvent) : QueueState := es.foldl qstep initQueue

/-! ## Store: logs list and contextsMap -/

/-- The response part of a LogEntry, filled in after the target answered. -/
structure LogResp where
  status : Nat
  statusText : String
  headers : HeaderMap
  body : String
deriving Repr, DecidableEq

/-- A LogEntry as built by handleQueuedRequest: requestId, method, url,
headers snapshot, body, timestamp, and, once completed, either response
or responseError. -/
structure LogEntry where
  requestId : String
  method : String
  url : String
  headers : HeaderMap
  body : String
  timestamp : String
  response : Option LogResp
  responseError : Option String
deriving Repr, DecidableEq

/-- The module-level mutable collections: the logs array and the
contextsMap from requestId to the ordered array of context strings. -/
structure Store where
  logs : List LogEntry
  contexts : List (String × List String)
deriving Repr, DecidableEq

/-! ## Queued-request handler (handleQueuedRequest) -/

/-- The request data seen by the middleware chain: method, url
(path plus query), header map after identity injection, and the client
body as delivered by raw-body. -/
structure QReq where
  method : String
  url : String
  headers : HeaderMap
  body : String
deriving Repr, DecidableEq

/-- The target's response as observed through fetch. -/
structure TargetResp where
  status : Nat
  statusText : String
  headers : HeaderMap
  body : String
deriving Repr, DecidableEq

/-- Outcome of the fetch call to the target: a response, or a transport
error with a message. -/
inductive FetchResult where
  | ok (r : TargetResp)
  | err (msg : String)
deriving Repr, DecidableEq

/-- The observable actions of handleQueuedRequest in program order, used
to settle ordering claims: reading the client body, creating the
contextsMap entry, creating the LogEntry object, issuing the fetch to
the target, pushing the entry onto the logs list, and writing the
response to the client. -/
inductive HAction where
  | readBody
  | initContexts
  | createLogEntry
  | fetchTarget
  | appendLog
  | respondClient
deriving Repr, DecidableEq, BEq

/-- How handleQueuedRequest ends: it throws (the raw-body 2mb limit was
exceeded, so the rejection propagates to the catch in
requestQueueMiddleware), or it completes having sent a client response. -/
inductive HOutcome where
  | threw
  | completed (status : Nat) (headers : HeaderMap) (body : String)
deriving Repr, DecidableEq

/-- Everything handleQueuedRequest produces: the updated store, the way
it ended, its action trace, and the forwarded request (headers, callback
url, target url) when the fetch was reached. -/
structure HandlerRun where
  store : Store
  outcome : HOutcome
  trace : List HAction
  forwardHeaders : Option HeaderMap
  callbackUrl : Option String
  targetUrl : Option String
deriving Repr, DecidableEq

/-- The callback url built by handleQueuedRequest: the incoming Host
header, or localhost with the proxy port when absent, then the
report-context path with the requestId query. -/
def callbackUrlOf (proxyPort : Nat) (headers : HeaderMap) (requestId : String) : String :=
  "http://" ++ ((aget headers "host").getD ("localhost:" ++ toString proxyPort))
    ++ "/_chopin/report-context?requestId=" ++ requestId

/-- handleQueuedRequest (src/middleware/request-queue.js lines 29 to 92).
requestId stands for the crypto.randomUUID() result and timestamp for
new Date().toISOString(); fetchResult abstracts the network exchange
with the target. -/
def handleQueuedRequest (proxyPort targetPort : Nat) (requestId timestamp : String)
    (req : QReq) (fetchResult : FetchResult) (s : Store) : HandlerRun :=
  if bodyLimit2mb < byteLength req.body then
    { store := s, outcome := .threw, trace := [],
      forwardHeaders := none, callbackUrl := none, targetUrl := none }
  else
    let s1 : Store := { s with contexts := aset s.contexts requestId [] }
    let entry0 : LogEntry :=
      { requestId := requestId, method := req.method, url := req.url,
        headers := req.headers, body := req.body, timestamp := timestamp,
        response := none, responseError := none }
    let callbackUrl := callbackUrlOf proxyPort req.headers requestId
    let fh0 := adel (adel (adel req.headers "host") "content-length") "transfer-encoding"
    let fh := aset fh0 "x-callback-url" callbackUrl
    let targetUrl := "http://localhost:" ++ toString targetPort ++ req.url
    match fetchResult with
    | .err msg =>
      let entry := { entry0 with responseError := some msg }
      { store := { s1 with logs := s1.logs ++ [entry] },
        outcome := .completed 502 []
          ("\x7b\"error\":\"Bad Gateway\",\"details\":\"" ++ msg ++ "\"\x7d"),
        trace := [.readBody, .initContexts, .createLogEntry, .fetchTarget,
                  .appendLog, .respondClient],
        forwardHeaders := some fh, callbackUrl := some callbackUrl,
        targetUrl := some targetUrl }
    | .ok tr =>
      let entry := { entry0 with
        response := some ⟨tr.status, tr.statusText, tr.headers, tr.body⟩ }
      let clientHeaders := tr.headers.filter (fun p =>
        !(["transfer-encoding", "content-length", "connection"].contains (strToLower p.1)))
      { store := { s1 with logs := s1.logs ++ [entry] },
        outcome := .completed tr.status clientHeaders tr.body,
        trace := [.readBody, .initContexts, .createLogEntry, .fetchTarget,
                  .appendLog, .respondClient],
        forwardHeaders := some fh, callbackUrl := some callbackUrl,
        targetUrl := some targetUrl }

/-- The client status an outcome translates to: the handler's own
response status when it completed, or the 500 sent by the catch
continuation in requestQueueMiddleware when the handler threw before
sending headers. -/
def statusOfOutcome : HOutcome → Nat
  | .threw => 500
  | .completed st _ _ => st

/-- The status the queued client ends up receiving for a request that
went through requestQueueMiddleware and handleQueuedRequest. -/
def queuedClientStatus (proxyPort targetPort : Nat) (requestId timestamp : String)
    (req : QReq) (fetchResult : FetchResult) (s : Store) : Nat :=
  statusOfOutcome
    (handleQueuedRequest proxyPort targetPort requestId timestamp req fetchResult s).outcome

/-- Admission test of requestQueueMiddleware (lines 97 to 103): mutating
method and not a websocket upgrade. -/
def isQueued (req : QReq) : Bool :=
  (["POST", "PUT", "PATCH", "DELETE"].contains (strToUpper req.method))
    && !(match aget req.headers "upgrade" with
         | some u => strToLower u == "websocket"
         | none => false)

/-- Request headers forwarded to the target by the pipeline: the
handler's composed headers for queued requests; for everything else the
pass-through proxy (createProxyMiddleware, an external library) relays
the request headers unchanged. -/
def forwardedHeaders (proxyPort targetPort : Nat) (requestId timestamp : String)
    (req : QReq) (fetchResult : FetchResult) (s : Store) : Option HeaderMap :=
  if isQueued req then
    (handleQueuedRequest proxyPort targetPort requestId timestamp req fetchResult s).forwardHeaders
  else
    some req.headers

/-! ## /_chopin control endpoints (the chopinRouter) -/

/-- A report-context call: the requestId query parameter (none when the
query string has no requestId key), the content-type header, and the raw
request body. -/
structure CtxReq where
  requestId : Option String
  contentType : Option String
  body : String
deriving Repr, DecidableEq

/-- The possible responses of the report-context route. -/
inductive CtxResp where
  | missingId
  | noMatch
  | invalidBody
  | success
deriving Repr, DecidableEq

/-- HTTP status of each report-context response: 400 for a missing
requestId, 404 for an unknown one, 400 when reading the raw body fails,
200 with success true otherwise. -/
def ctxStatus : CtxResp → Nat
  | .missingId => 400
  | .noMatch => 404
  | .invalidBody => 400
  | .success => 200

/-- The report-context route handler.  The requestId check is the JS
falsy test, so an absent or empty parameter is a 400; the body is read
raw through readRawString with its 1mb cap and appended as-is; the
content type is never consulted. -/
def reportContext (s : Store) (r : CtxReq) : Store × CtxResp :=
  let requestId := r.requestId.getD ""
  if requestId == "" then (s, .missingId)
  else
    match aget s.contexts requestId with
    | none => (s, .noMatch)
    | some arr =>
      if bodyLimit1mb < byteLength r.body then (s, .invalidBody)
      else ({ s with contexts := aset s.contexts requestId (arr ++ [r.body]) }, .success)

/-- A logs entry as returned by the logs route: the stored LogEntry with
its contexts looked up in contextsMap at read time. -/
structure MergedEntry where
  entry : LogEntry
  contexts : List String
deriving Repr, DecidableEq

/-- The logs route: map over the logs list, attaching the context
sequence of each entry's requestId (empty when absent). -/
def getLogs (s : Store) : List MergedEntry :=
  s.logs.map (fun e => ⟨e, (aget s.contexts e.requestId).getD []⟩)

/-! ## /_chopin/login -/

/-- A hexadecimal digit of either case, as accepted by the login route's
regular expression. -/
def isHexChar (c : Char) : Bool :=
  c.isDigit || ('a' ≤ c && c ≤ 'f') || ('A' ≤ c && c ≤ 'F')

/-- A lowercase hexadecimal digit. -/
def isLowerHexChar (c : Char) : Bool :=
  c.isDigit || ('a' ≤ c && c ≤ 'f')

/-- The login route's address test: 0x followed by exactly 40 hex digits
of either case. -/
def loginAddressOk (s : String) : Bool :=
  match s.data with
  | '0' :: 'x' :: rest => rest.length == 40 && rest.all isHexChar
  | _ => false

/-- The Address shape of the data model: 0x followed by exactly 40
lowercase hex digits. -/
def isSpecAddress (s : String) : Bool :=
  match s.data with
  | '0' :: 'x' :: rest => rest.length == 40 && rest.all isLowerHexChar
  | _ => false

/-- Result of the login route: the json body fields, the sub claim of
the minted unsigned token, and the dev-address cookie value. -/
structure LoginResult where
  success : Bool
  address : String
  tokenSub : String
  cookieDevAddress : String
deriving Repr, DecidableEq

/-- The login route handler.  asParam is the as query parameter (the JS
falsy test makes an empty string behave like an absent one); randomHex
stands for crypto.randomBytes(20).toString(hex), the 40 lowercase hex
characters drawn when no valid as is supplied. -/
def login (asParam : Option String) (randomHex : String) : LoginResult :=
  let address :=
    match asParam with
    | some a => if a == "" || !(loginAddressOk a) then "0x" ++ randomHex else a
    | none => "0x" ++ randomHex
  { success := true, address := address, tokenSub := address,
    cookieDevAddress := address }

/-! ## Concrete example inputs used by witnesses and counterexamples -/

/-- A small queued request with a Host header and a resolved identity. -/
def exReq : QReq :=
  { method := "POST", url := "/slow",
    headers := [("host", "localhost:4000"),
                ("x-address", "0x1111111111111111111111111111111111111111")],
    body := "hello" }

/-- A queued request carrying a connection header. -/
def exReqConn : QReq :=
  { method := "POST", url := "/a",
    headers := [("connection", "keep-alive"), ("host", "h"),
                ("x-address", "0xabc")],
    body := "b" }

/-- A small target response. -/
def exResp : TargetResp :=
  { status := 201, statusText := "Created",
    headers := [("content-type", "application/json"),
                ("connection", "keep-alive")],
    body := "done" }

/-- A body one byte over the 2mb queued-request cap. -/
def bigBody : String := String.mk (List.replicate 2097153 'a')

/-- A queued request whose body exceeds the raw-body 2mb limit. -/
def bigReq : QReq := { method := "POST", url := "/x", headers := [], body := bigBody }

/-- The empty store. -/
def emptyStore : Store := ⟨[], []⟩

/-- A concrete stored LogEntry for a queued request with requestId r4. -/
def exEntry : LogEntry :=
  { requestId := "r4", method := "POST", url := "/u", headers := [],
    body := "b", timestamp := "t", response := none, responseError := none }

/-! ## Claims -/

/-- C1: the claim asserts that at most one task executes the
queued-request handler at a time even when a handler fails.  The code
violates it: the catch continuation sets isProcessing to false before
calling processNext, so after a failed handler a dequeued waiter runs
with isProcessing still false, and a newly arriving mutating request is
admitted immediately alongside it.  Concretely: request 0 is admitted,
request 1 queues behind it, request 0 fails, request 1 is dispatched
with isProcessing = false, request 2 then arrives and is admitted at
once — two handlers (1 and 2) are executing concurrently. -/
theorem c1_mutual_exclusion_violated :
    (runTrace [QEvent.arrive 0, QEvent.arrive 1, QEvent.finishErr 0,
               QEvent.arrive 2]).running = [1, 2]
    ∧ ¬ ((runTrace [QEvent.arrive 0, QEvent.arrive 1, QEvent.finishErr 0,
                    QEvent.arrive 2]).running.length ≤ 1) := by
  decide

/-- C2 counterexample: with both a dev-address cookie and a valid bearer
token carrying a different sub claim, the middleware forwards the token
sub, not the cookie value, because the token branch runs after the
cookie branch and overwrites x-address; and with neither cookie nor
valid token, a client-supplied x-address header passes through to the
forwarded headers. -/
theorem c2_counterexample :
    aget (authMiddleware (some "0xcccccccccccccccccccccccccccccccccccccccc")
        (fun t => if t == "tok"
          then some "0xdddddddddddddddddddddddddddddddddddddddd" else none)
        [("authorization", "Bearer tok")]) "x-address"
      = some "0xdddddddddddddddddddddddddddddddddddddddd"
    ∧ ¬ (aget (authMiddleware (some "0xcccccccccccccccccccccccccccccccccccccccc")
        (fun t => if t == "tok"
          then some "0xdddddddddddddddddddddddddddddddddddddddd" else none)
        [("authorization", "Bearer tok")]) "x-address"
      = some "0xcccccccccccccccccccccccccccccccccccccccc")
    ∧ aget (authMiddleware none (fun _ => none)
        [("x-address", "0xevil")]) "x-address" = some "0xevil" := by
  decide

/-- C2 (amended): the forwarded x-address is the sub claim of a valid
Bearer token when one resolves (the token wins over the cookie, since
its branch runs second); otherwise the dev-address cookie value when the
cookie is present; otherwise whatever x-address the client sent is left
in place and forwarded. -/
theorem c2_identity_resolution (cookie : Option String)
    (verifySub : String → Option String) (headers : HeaderMap) :
    aget (authMiddleware cookie verifySub headers) "x-address" =
      match bearerSub verifySub headers with
      | some sub => some sub
      | none =>
        match cookie with
        | some a => some a
        | none => aget headers "x-address" := by
  cases cookie with
  | none =>
    cases hah : aget headers "authorization" with
    | none => simp [authMiddleware, bearerSub, hah]
    | some ah =>
      by_cases hb : strStartsWith ah "Bearer "
      · cases hv : verifySub (strDrop ah 7) with
        | none => simp [authMiddleware, bearerSub, hah, hb, hv]
        | some sub => simp [authMiddleware, bearerSub, hah, hb, hv, aget_aset_same]
      · simp [authMiddleware, bearerSub, hah, hb]
  | some a =>
    have hauth : aget (aset headers "x-address" a) "authorization"
        = aget headers "authorization" :=
      aget_aset_other headers "authorization" "x-address" a (by decide)
    cases hah : aget headers "authorization" with
    | none => simp [authMiddleware, bearerSub, hah, hauth, aget_aset_same]
    | some ah =>
      by_cases hb : strStartsWith ah "Bearer "
      · cases hv : verifySub (strDrop ah 7) with
        | none => simp [authMiddleware, bearerSub, hah, hauth, hb, hv, aget_aset_same]
        | some sub => simp [authMiddleware, bearerSub, hah, hauth, hb, hv, aget_aset_same]
      · simp [authMiddleware, bearerSub, hah, hauth, hb, aget_aset_same]

/-- C3 counterexample: in the handler's action trace the push onto the
logs list comes after the fetch to the target, not before it, so the
claim that the LogEntry is appended to the log list before the request
is forwarded fails already on this small request. -/
theorem c3_counterexample :
    ¬ (List.indexOf HAction.appendLog
        (handleQueuedRequest 4000 3000 "rid3" "ts" exReq (FetchResult.ok exResp)
          emptyStore).trace
      < List.indexOf HAction.fetchTarget
        (handleQueuedRequest 4000 3000 "rid3" "ts" exReq (FetchResult.ok exResp)
          emptyStore).trace) := by
  decide

/-- C3 (amended): the LogEntry is created, with requestId, method, url,
headers snapshot, body and timestamp, before the request is forwarded to
the target, and it is appended to the log list only after the target
responded or errored, already completed with the response or the
responseError. -/
theorem c3_log_entry_timing (pp tp : Nat) (rid ts : String) (req : QReq)
    (fr : FetchResult) (s : Store) (run : HandlerRun)
    (hbody : byteLength req.body ≤ bodyLimit2mb)
    (hrun : run = handleQueuedRequest pp tp rid ts req fr s) :
    List.indexOf HAction.createLogEntry run.trace
      < List.indexOf HAction.fetchTarget run.trace
    ∧ List.indexOf HAction.fetchTarget run.trace
      < List.indexOf HAction.appendLog run.trace
    ∧ ∃ e : LogEntry, run.store.logs = s.logs ++ [e]
        ∧ e.requestId = rid ∧ e.method = req.method ∧ e.url = req.url
        ∧ e.headers = req.headers ∧ e.body = req.body ∧ e.timestamp = ts
        ∧ (∀ msg, fr = FetchResult.err msg →
            e.responseError = some msg ∧ e.response = none)
        ∧ (∀ tr, fr = FetchResult.ok tr →
            e.response = some ⟨tr.status, tr.statusText, tr.headers, tr.body⟩
              ∧ e.responseError = none) := by
  subst hrun
  have hnb : ¬ (bodyLimit2mb < byteLength req.body) := not_lt.mpr hbody
  have htrace : (handleQueuedRequest pp tp rid ts req fr s).trace
      = [HAction.readBody, HAction.initContexts, HAction.createLogEntry,
         HAction.fetchTarget, HAction.appendLog, HAction.respondClient] := by
    unfold handleQueuedRequest
    rw [if_neg hnb]
    cases fr <;> rfl
  refine ⟨by rw [htrace]; decide, by rw [htrace]; decide, ?_⟩
  cases fr with
  | err msg =>
    refine ⟨{ requestId := rid, method := req.method, url := req.url,
              headers := req.headers, body := req.body, timestamp := ts,
              response := none, responseError := some msg },
            ?_, rfl, rfl, rfl, rfl, rfl, rfl, ?_, ?_⟩
    · unfold handleQueuedRequest
      rw [if_neg hnb]
    · intro m hm
      cases hm
      exact ⟨rfl, rfl⟩
    · intro tr htr
      cases htr
  | ok tr =>
    refine ⟨{ requestId := rid, method := req.method, url := req.url,
              headers := req.headers, body := req.body, timestamp := ts,
              response := some ⟨tr.status, tr.statusText, tr.headers, tr.body⟩,
              responseError := none },
            ?_, rfl, rfl, rfl, rfl, rfl, rfl, ?_, ?_⟩
    · unfold handleQueuedRequest
      rw [if_neg hnb]
    · intro m hm
      cases hm
    · intro tr2 htr
      cases htr
      exact ⟨rfl, rfl⟩

/-- C3 witness: the amended theorem applied to a concrete successful
request: both ordering facts hold on the resulting trace. -/
theorem c3_witness :
    List.indexOf HAction.createLogEntry
        (handleQueuedRequest 4000 3000 "rid3w" "ts" exReq (FetchResult.ok exResp)
          emptyStore).trace
      < List.indexOf HAction.fetchTarget
        (handleQueuedRequest 4000 3000 "rid3w" "ts" exReq (FetchResult.ok exResp)
          emptyStore).trace := by
  exact (c3_log_entry_timing 4000 3000 "rid3w" "ts" exReq (FetchResult.ok exResp)
    emptyStore _ (by decide) rfl).1

/-- One successful report-context call: with a non-empty requestId whose
context sequence is acc and a body within the 1mb cap, the call appends
the body and leaves the logs untouched. -/
theorem reportContext_step (s : Store) (rid : String) (ct : Option String)
    (p : String) (acc : List String) (hrid : rid ≠ "")
    (hacc : aget s.contexts rid = some acc)
    (hsz : byteLength p ≤ bodyLimit1mb) :
    reportContext s ⟨some rid, ct, p⟩
      = ({ s with contexts := aset s.contexts rid (acc ++ [p]) }, CtxResp.success) := by
  have hrid' : (rid == "") = false := beq_false_of_ne hrid
  have hnl : ¬ (bodyLimit1mb < byteLength p) := not_lt.mpr hsz
  simp [reportContext, hrid', hacc, hnl]

/-- Folding successive report-context calls for the same requestId over a
payload list appends the payloads in order and never touches the logs. -/
theorem reportContext_foldl (rid : String) (ct : Option String) (hrid : rid ≠ "")
    (ps : List String) : ∀ (s : Store) (acc : List String),
    aget s.contexts rid = some acc →
    (∀ p ∈ ps, byteLength p ≤ bodyLimit1mb) →
    aget ((ps.foldl (fun st p => (reportContext st ⟨some rid, ct, p⟩).1) s).contexts) rid
        = some (acc ++ ps)
    ∧ (ps.foldl (fun st p => (reportContext st ⟨some rid, ct, p⟩).1) s).logs = s.logs := by
  induction ps with
  | nil =>
    intro s acc hacc _
    simpa using hacc
  | cons p ps ih =>
    intro s acc hacc hsz
    have hstep : (reportContext s ⟨some rid, ct, p⟩).1
        = { s with contexts := aset s.contexts rid (acc ++ [p]) } := by
      rw [reportContext_step s rid ct p acc hrid hacc (hsz p (by simp))]
    rw [List.foldl_cons, hstep]
    have hacc' : aget (aset s.contexts rid (acc ++ [p])) rid = some (acc ++ [p]) :=
      aget_aset_same s.contexts rid (acc ++ [p])
    have hrest : ∀ q ∈ ps, byteLength q ≤ bodyLimit1mb :=
      fun q hq => hsz q (by simp [hq])
    obtain ⟨h1, h2⟩ := ih { s with contexts := aset s.contexts rid (acc ++ [p]) }
      (acc ++ [p]) hacc' hrest
    refine ⟨?_, h2⟩
    rw [h1]
    simp

/-- C4: for a queued request whose context sequence was created empty, a
finite sequence of sequential report-context calls with payloads ps
leaves the stored sequence exactly ps in invocation order, the logs list
untouched, and the logs route returns the request's entry with contexts
equal to ps.  The payloads are assumed within the report-context body
cap so every call succeeds. -/
theorem c4_context_ordering (s s' : Store) (rid : String) (ps : List String)
    (ct : Option String) (e : LogEntry)
    (hrid : rid ≠ "")
    (hinit : aget s.contexts rid = some [])
    (hsz : ∀ p ∈ ps, byteLength p ≤ bodyLimit1mb)
    (hs' : s' = ps.foldl (fun st p => (reportContext st ⟨some rid, ct, p⟩).1) s)
    (he : e ∈ s.logs) (hid : e.requestId = rid) :
    aget s'.contexts rid = some ps
    ∧ s'.logs = s.logs
    ∧ MergedEntry.mk e ps ∈ getLogs s' := by
  obtain ⟨h1, h2⟩ := reportContext_foldl rid ct hrid ps s [] hinit hsz
  rw [List.nil_append] at h1
  rw [← hs'] at h1 h2
  refine ⟨h1, h2, ?_⟩
  have he' : e ∈ s'.logs := by rw [h2]; exact he
  have hmem := List.mem_map_of_mem
    (fun x => MergedEntry.mk x ((aget s'.contexts x.requestId).getD [])) he'
  simp only [hid, h1, Option.getD_some] at hmem
  exact hmem

/-- C4 witness: two sequential report-context calls on a store holding a
queued request with requestId r4 and an empty context sequence yield the
stored sequence in invocation order. -/
theorem c4_witness :
    aget ((["context #1", "context #2"].foldl
        (fun st p => (reportContext st ⟨some "r4", some "text/plain", p⟩).1)
        ⟨[exEntry], [("r4", [])]⟩).contexts) "r4"
      = some ["context #1", "context #2"] := by
  exact (c4_context_ordering ⟨[exEntry], [("r4", [])]⟩ _ "r4"
    ["context #1", "context #2"] (some "text/plain") exEntry
    (by decide) (by decide) (by decide) rfl (by decide) (by decide)).1

/-- C5: the report-context route returns 400 when the requestId query
parameter is missing, 404 when no context sequence exists for it,
otherwise appends the raw body as-is (within the 1mb raw-body cap) to
that sequence, leaves the logs untouched, answers success with 200, and
never consults the content type. -/
theorem c5_report_context (s : Store) (rid : String) (ct ct' : Option String)
    (b : String) (arr : List String) :
    (reportContext s ⟨none, ct, b⟩ = (s, CtxResp.missingId)
      ∧ ctxStatus CtxResp.missingId = 400)
    ∧ (rid ≠ "" → aget s.contexts rid = none →
        reportContext s ⟨some rid, ct, b⟩ = (s, CtxResp.noMatch)
        ∧ ctxStatus CtxResp.noMatch = 404)
    ∧ (rid ≠ "" → aget s.contexts rid = some arr → byteLength b ≤ bodyLimit1mb →
        aget ((reportContext s ⟨some rid, ct, b⟩).1.contexts) rid = some (arr ++ [b])
        ∧ (reportContext s ⟨some rid, ct, b⟩).1.logs = s.logs
        ∧ (reportContext s ⟨some rid, ct, b⟩).2 = CtxResp.success
        ∧ ctxStatus CtxResp.success = 200)
    ∧ reportContext s ⟨some rid, ct, b⟩ = reportContext s ⟨some rid, ct', b⟩ := by
  refine ⟨⟨rfl, rfl⟩, ?_, ?_, rfl⟩
  · intro hrid hnone
    have hrid' : (rid == "") = false := beq_false_of_ne hrid
    constructor
    · simp [reportContext, hrid', hnone]
    · rfl
  · intro hrid hsome hsz
    rw [reportContext_step s rid ct b arr hrid hsome hsz]
    exact ⟨aget_aset_same s.contexts rid (arr ++ [b]), rfl, rfl, rfl⟩

/-- C5 witness: the amended-free theorem applied at concrete inputs: a
missing requestId yields the 400 response, an unknown requestId the 404
response, and a known one gets the raw body appended with success. -/
theorem c5_witness :
    reportContext ⟨[], [("r5", ["x"])]⟩ ⟨none, some "application/json", "b"⟩
      = (⟨[], [("r5", ["x"])]⟩, CtxResp.missingId)
    ∧ reportContext ⟨[], [("r5", ["x"])]⟩ ⟨some "nope", some "application/json", "b"⟩
      = (⟨[], [("r5", ["x"])]⟩, CtxResp.noMatch)
    ∧ aget ((reportContext ⟨[], [("r5", ["x"])]⟩ ⟨some "r5", none, "y"⟩).1.contexts) "r5"
      = some ["x", "y"] := by
  have h1 := c5_report_context ⟨[], [("r5", ["x"])]⟩ "nope"
    (some "application/json") none "b" []
  have h2 := c5_report_context ⟨[], [("r5", ["x"])]⟩ "r5" none none "y" ["x"]
  exact ⟨h1.1.1, (h1.2.1 (by decide) (by decide)).1,
    (h2.2.2.1 (by decide) (by decide) (by decide)).1⟩

/-- C6 counterexample: the handler deletes only host, content-length and
transfer-encoding from the forwarded copy of the request headers; a
connection header survives into the forwarded headers, contradicting
the claim that exactly four hop-by-hop headers are removed. -/
theorem c6_counterexample :
    aget ((handleQueuedRequest 4000 3000 "rid6" "ts" exReqConn
        (FetchResult.ok exResp) emptyStore).forwardHeaders.getD [])
      "connection" = some "keep-alive"
    ∧ ¬ (aget ((handleQueuedRequest 4000 3000 "rid6" "ts" exReqConn
        (FetchResult.ok exResp) emptyStore).forwardHeaders.getD [])
      "connection" = none) := by
  decide

/-- C6 (amended): the headers forwarded to the target equal the
request's headers with exactly the three headers host, content-length
and transfer-encoding removed and x-callback-url added; every other
header, connection included, is forwarded unchanged.  (Connection is
stripped only from the response headers copied back to the client.) -/
theorem c6_forward_headers (pp tp : Nat) (rid ts : String) (req : QReq)
    (fr : FetchResult) (s : Store) (run : HandlerRun)
    (hbody : byteLength req.body ≤ bodyLimit2mb)
    (hrun : run = handleQueuedRequest pp tp rid ts req fr s) :
    run.forwardHeaders.isSome = true
    ∧ ∀ k, aget (run.forwardHeaders.getD []) k =
        if k = "x-callback-url" then some (callbackUrlOf pp req.headers rid)
        else if k = "host" ∨ k = "content-length" ∨ k = "transfer-encoding" then none
        else aget req.headers k := by
  subst hrun
  have hnb : ¬ (bodyLimit2mb < byteLength req.body) := not_lt.mpr hbody
  have hfh : (handleQueuedRequest pp tp rid ts req fr s).forwardHeaders
      = some (aset (adel (adel (adel req.headers "host") "content-length")
          "transfer-encoding") "x-callback-url" (callbackUrlOf pp req.headers rid)) := by
    unfold handleQueuedRequest
    rw [if_neg hnb]
    cases fr <;> rfl
  rw [hfh]
  refine ⟨rfl, ?_⟩
  intro k
  simp only [Option.getD_some]
  by_cases h1 : k = "x-callback-url"
  · rw [if_pos h1, h1]
    exact aget_aset_same _ "x-callback-url" _
  · rw [if_neg h1]
    rw [aget_aset_other _ k "x-callback-url" _ h1]
    by_cases h2 : k = "host" ∨ k = "content-length" ∨ k = "transfer-encoding"
    · rw [if_pos h2]
      rcases h2 with h2 | h2 | h2
      · subst h2
        rw [aget_adel_other _ _ "transfer-encoding" (by decide),
          aget_adel_other _ _ "content-length" (by decide)]
        exact aget_adel_same req.headers "host"
      · subst h2
        rw [aget_adel_other _ _ "transfer-encoding" (by decide)]
        exact aget_adel_same _ "content-length"
      · subst h2
        exact aget_adel_same _ "transfer-encoding"
    · rw [if_neg h2]
      push_neg at h2
      obtain ⟨ha, hb, hc⟩ := h2
      rw [aget_adel_other _ k "transfer-encoding" hc,
        aget_adel_other _ k "content-length" hb,
        aget_adel_other _ k "host" ha]

/-- C6 witness: on a concrete request carrying host, connection and
x-address headers, the forwarded map drops host, keeps connection and
x-address unchanged, and carries the callback url. -/
theorem c6_witness :
    aget ((handleQueuedRequest 4000 3000 "rid6w" "ts" exReqConn
        (FetchResult.ok exResp) emptyStore).forwardHeaders.getD []) "host" = none
    ∧ aget ((handleQueuedRequest 4000 3000 "rid6w" "ts" exReqConn
        (FetchResult.ok exResp) emptyStore).forwardHeaders.getD [])
      "x-address" = aget exReqConn.headers "x-address" := by
  have h := (c6_forward_headers 4000 3000 "rid6w" "ts" exReqConn
    (FetchResult.ok exResp) emptyStore _ (by decide) rfl).2
  have hh := h "host"
  have hx := h "x-address"
  rw [if_neg (by decide), if_pos (by decide)] at hh
  rw [if_neg (by decide), if_neg (by decide)] at hx
  exact ⟨hh, hx⟩

/-- The body of bigReq is one byte over the 2mb raw-body cap. -/
theorem bigReq_body_over_cap : bodyLimit2mb < byteLength bigReq.body := by
  have hb : byteLength bigReq.body = 2097153 := byteLength_replicate_a 2097153
  rw [hb]
  decide

/-- C7 counterexample: a queued request whose body exceeds the 2mb cap
makes raw-body reject, the rejection escapes handleQueuedRequest, and
the catch in requestQueueMiddleware answers with sendStatus 500 — not a
413-equivalent response. -/
theorem c7_counterexample :
    queuedClientStatus 4000 3000 "rid7" "ts" bigReq (FetchResult.ok exResp)
      emptyStore = 500
    ∧ (500 : Nat) ≠ 413 := by
  constructor
  · have h : handleQueuedRequest 4000 3000 "rid7" "ts" bigReq (FetchResult.ok exResp)
        emptyStore
        = { store := emptyStore, outcome := .threw, trace := [],
            forwardHeaders := none, callbackUrl := none, targetUrl := none } := by
      unfold handleQueuedRequest
      rw [if_pos bigReq_body_over_cap]
    unfold queuedClientStatus
    rw [h]
    rfl
  · decide

/-- C7 (amended): when the body of an admitted mutating request exceeds
the 2mb cap, handleQueuedRequest throws, the store is untouched, the
client receives 500 (the generic catch response, not a 413), and the
slot is released so that a queued waiter is dispatched by the catch
continuation. -/
theorem c7_overflow (pp tp : Nat) (rid ts : String) (req : QReq)
    (fr : FetchResult) (s : Store)
    (hbig : bodyLimit2mb < byteLength req.body) :
    (handleQueuedRequest pp tp rid ts req fr s).outcome = HOutcome.threw
    ∧ (handleQueuedRequest pp tp rid ts req fr s).store = s
    ∧ queuedClientStatus pp tp rid ts req fr s = 500
    ∧ ∀ (b : Bool) (r w : Nat) (rest : List Nat),
        qstep ⟨b, w :: rest, [r]⟩ (QEvent.finishErr r) = ⟨false, rest, [w]⟩ := by
  have h : handleQueuedRequest pp tp rid ts req fr s
      = { store := s, outcome := .threw, trace := [],
          forwardHeaders := none, callbackUrl := none, targetUrl := none } := by
    unfold handleQueuedRequest
    rw [if_pos hbig]
  refine ⟨by rw [h], by rw [h], ?_, ?_⟩
  · unfold queuedClientStatus
    rw [h]
    rfl
  · intro b r w rest
    simp [qstep, processNext]

/-- C7 witness: the overflow theorem applied to the concrete over-cap
request: the handler throws and the queued client gets 500. -/
theorem c7_witness :
    (handleQueuedRequest 4000 3000 "rid7w" "ts" bigReq (FetchResult.err "boom")
      emptyStore).outcome = HOutcome.threw
    ∧ queuedClientStatus 4000 3000 "rid7w" "ts" bigReq (FetchResult.err "boom")
      emptyStore = 500 := by
  have h := c7_overflow 4000 3000 "rid7w" "ts" bigReq (FetchResult.err "boom")
    emptyStore bigReq_body_over_cap
  exact ⟨h.1, h.2.2.1⟩

/-- The logs route preserves each entry's requestId in order. -/
theorem getLogs_requestIds (st : Store) :
    (getLogs st).map (fun m => m.entry.requestId) = st.logs.map LogEntry.requestId := by
  unfold getLogs
  rw [List.map_map]
  rfl

/-- C8: every queued request is forwarded with an x-callback-url header
equal to http:// then the incoming Host (or localhost:proxyPort when
absent) then /_chopin/report-context?requestId= then the generated
requestId, and that same requestId is the one recorded in the request's
LogEntry and returned by the logs route; the pass-through path forwards
non-queued requests with their headers unchanged, so the proxy never
adds x-callback-url to them. -/
theorem c8_callback_url (pp tp : Nat) (rid ts : String) (req : QReq)
    (fr : FetchResult) (s : Store) (run : HandlerRun)
    (hq : isQueued req = true)
    (hbody : byteLength req.body ≤ bodyLimit2mb)
    (hrun : run = handleQueuedRequest pp tp rid ts req fr s) :
    run.callbackUrl = some (callbackUrlOf pp req.headers rid)
    ∧ forwardedHeaders pp tp rid ts req fr s = run.forwardHeaders
    ∧ aget (run.forwardHeaders.getD []) "x-callback-url"
        = some (callbackUrlOf pp req.headers rid)
    ∧ run.store.logs.map LogEntry.requestId = s.logs.map LogEntry.requestId ++ [rid]
    ∧ (getLogs run.store).map (fun m => m.entry.requestId)
        = s.logs.map LogEntry.requestId ++ [rid]
    ∧ ∀ (req2 : QReq) (pp2 tp2 : Nat) (rid2 ts2 : String) (fr2 : FetchResult)
        (s2 : Store), isQueued req2 = false →
        forwardedHeaders pp2 tp2 rid2 ts2 req2 fr2 s2 = some req2.headers := by
  subst hrun
  have hnb : ¬ (bodyLimit2mb < byteLength req.body) := not_lt.mpr hbody
  have hcb : (handleQueuedRequest pp tp rid ts req fr s).callbackUrl
      = some (callbackUrlOf pp req.headers rid) := by
    unfold handleQueuedRequest
    rw [if_neg hnb]
    cases fr <;> rfl
  have hfh : (handleQueuedRequest pp tp rid ts req fr s).forwardHeaders
      = some (aset (adel (adel (adel req.headers "host") "content-length")
          "transfer-encoding") "x-callback-url" (callbackUrlOf pp req.headers rid)) := by
    unfold handleQueuedRequest
    rw [if_neg hnb]
    cases fr <;> rfl
  have hids : (handleQueuedRequest pp tp rid ts req fr s).store.logs.map
      LogEntry.requestId = s.logs.map LogEntry.requestId ++ [rid] := by
    unfold handleQueuedRequest
    rw [if_neg hnb]
    cases fr <;> simp
  refine ⟨hcb, ?_, ?_, hids, ?_, ?_⟩
  · simp [forwardedHeaders, hq]
  · rw [hfh]
    simp only [Option.getD_some]
    exact aget_aset_same _ "x-callback-url" _
  · rw [getLogs_requestIds]
    exact hids
  · intro req2 pp2 tp2 rid2 ts2 fr2 s2 hq2
    simp [forwardedHeaders, hq2]

/-- C8 witness: the theorem applied to a concrete queued request: the
callback url recorded in the run and the one in the forwarded headers
both carry the generated requestId. -/
theorem c8_witness :
    (handleQueuedRequest 4000 3000 "rid8w" "ts" exReq (FetchResult.ok exResp)
      emptyStore).callbackUrl = some (callbackUrlOf 4000 exReq.headers "rid8w")
    ∧ aget ((handleQueuedRequest 4000 3000 "rid8w" "ts" exReq (FetchResult.ok exResp)
      emptyStore).forwardHeaders.getD []) "x-callback-url"
      = some (callbackUrlOf 4000 exReq.headers "rid8w") := by
  have h := c8_callback_url 4000 3000 "rid8w" "ts" exReq (FetchResult.ok exResp)
    emptyStore _ (by decide) (by decide) rfl
  exact ⟨h.1, h.2.2.1⟩

/-- The uppercase variant of an address accepted by the login regular
expression but not matching the lowercase Address shape of the data
model. -/
def upperAddr : String := "0xAAAAAAAAAAAAAAAAAAAAAAAAAAAAAAAAAAAAAAAA"

/-- Forty lowercase hex characters, standing for the hex encoding of
crypto.randomBytes(20). -/
def lowHex40 : String := "aaaaaaaaaaaaaaaaaaaaaaaaaaaaaaaaaaaaaaaa"

/-- C9 counterexample: the login route's regular expression accepts hex
digits of either case and the route echoes the accepted value verbatim,
so an uppercase as parameter — invalid as a lowercase Address — is
neither replaced by a random address nor lowercased: the returned
address is the uppercase input itself, which is not a valid Address. -/
theorem c9_counterexample :
    (login (some upperAddr) lowHex40).address = upperAddr
    ∧ isSpecAddress upperAddr = false
    ∧ upperAddr ≠ "0x" ++ lowHex40 := by
  decide

/-- C9 (amended): the login route validates the as parameter against the
case-insensitive pattern 0x followed by 40 hex digits and echoes any
matching value verbatim, so the returned address is valid only up to
letter case; when as is absent, empty, or fails that pattern, the
address is 0x plus the 40 random lowercase hex characters and is then a
valid lowercase Address; in every case success is true, the dev-address
cookie is set to the returned address, and the minted unsigned token's
sub claim equals it. -/
theorem c9_login (a r : String) :
    ((login (some a) r).success = true
      ∧ (login (some a) r).cookieDevAddress = (login (some a) r).address
      ∧ (login (some a) r).tokenSub = (login (some a) r).address
      ∧ (login none r).success = true
      ∧ (login none r).cookieDevAddress = (login none r).address
      ∧ (login none r).tokenSub = (login none r).address)
    ∧ (a ≠ "" → loginAddressOk a = true → (login (some a) r).address = a)
    ∧ (loginAddressOk a = false → (login (some a) r).address = "0x" ++ r)
    ∧ (login none r).address = "0x" ++ r
    ∧ (r.data.length = 40 → (∀ c ∈ r.data, isLowerHexChar c = true) →
        isSpecAddress ((login none r).address) = true) := by
  refine ⟨⟨rfl, rfl, rfl, rfl, rfl, rfl⟩, ?_, ?_, rfl, ?_⟩
  · intro ha hok
    have ha' : (a == "") = false := beq_false_of_ne ha
    simp [login, ha', hok]
  · intro hnok
    simp [login, hnok]
  · intro hlen hall
    obtain ⟨l⟩ := r
    have hdata : ("0x" ++ String.mk l).data = '0' :: 'x' :: l := rfl
    show isSpecAddress ("0x" ++ String.mk l) = true
    unfold isSpecAddress
    rw [hdata]
    have h1 : (l.length == 40) = true := by
      simpa using hlen
    have h2 : l.all isLowerHexChar = true := by
      rw [List.all_eq_true]
      intro c hc
      exact hall c hc
    simp [h1, h2]

/-- C9 witness: the amended theorem applied at a concrete valid lowercase
as parameter (echoed verbatim) and at a concrete random draw (yielding a
valid lowercase Address). -/
theorem c9_witness :
    (login (some "0x1111111111111111111111111111111111111111") lowHex40).address
      = "0x1111111111111111111111111111111111111111"
    ∧ isSpecAddress ((login none lowHex40).address) = true := by
  have h := c9_login "0x1111111111111111111111111111111111111111" lowHex40
  exact ⟨h.2.1 (by decide) (by decide), h.2.2.2.2 (by decide) (by decide)⟩

/-- C10: the headers snapshot stored in a queued request's LogEntry is
the request's header map as it stood after identity injection and
before the callback header was added: the snapshot keeps x-address as
resolved, gains no x-callback-url (when the client sent none), while the
separate forwarded copy always carries x-callback-url. -/
theorem c10_headers_snapshot (pp tp : Nat) (rid ts : String) (req : QReq)
    (fr : FetchResult) (s : Store) (run : HandlerRun)
    (hbody : byteLength req.body ≤ bodyLimit2mb)
    (hrun : run = handleQueuedRequest pp tp rid ts req fr s) :
    run.store.logs.map LogEntry.headers = s.logs.map LogEntry.headers ++ [req.headers]
    ∧ aget (run.forwardHeaders.getD []) "x-callback-url"
        = some (callbackUrlOf pp req.headers rid)
    ∧ (∀ a, aget req.headers "x-address" = some a →
        run.store.logs.map (fun e => aget e.headers "x-address")
          = s.logs.map (fun e => aget e.headers "x-address") ++ [some a])
    ∧ (aget req.headers "x-callback-url" = none →
        run.store.logs.map (fun e => aget e.headers "x-callback-url")
          = s.logs.map (fun e => aget e.headers "x-callback-url") ++ [none]) := by
  subst hrun
  have hnb : ¬ (bodyLimit2mb < byteLength req.body) := not_lt.mpr hbody
  have hfh : (handleQueuedRequest pp tp rid ts req fr s).forwardHeaders
      = some (aset (adel (adel (adel req.headers "host") "content-length")
          "transfer-encoding") "x-callback-url" (callbackUrlOf pp req.headers rid)) := by
    unfold handleQueuedRequest
    rw [if_neg hnb]
    cases fr <;> rfl
  refine ⟨?_, ?_, ?_, ?_⟩
  · unfold handleQueuedRequest
    rw [if_neg hnb]
    cases fr <;> simp
  · rw [hfh]
    simp only [Option.getD_some]
    exact aget_aset_same _ "x-callback-url" _
  · intro a ha
    unfold handleQueuedRequest
    rw [if_neg hnb]
    cases fr <;> simp [ha]
  · intro hnone
    unfold handleQueuedRequest
    rw [if_neg hnb]
    cases fr <;> simp [hnone]

/-- C10 witness: on a concrete queued request with a resolved x-address
and no incoming x-callback-url, the single stored snapshot is the
request's headers and carries no x-callback-url. -/
theorem c10_witness :
    (handleQueuedRequest 4000 3000 "rid10w" "ts" exReq (FetchResult.ok exResp)
      emptyStore).store.logs.map LogEntry.headers = [exReq.headers]
    ∧ (handleQueuedRequest 4000 3000 "rid10w" "ts" exReq (FetchResult.ok exResp)
      emptyStore).store.logs.map (fun e => aget e.headers "x-callback-url")
      = [none] := by
  have h := c10_headers_snapshot 4000 3000 "rid10w" "ts" exReq (FetchResult.ok exResp)
    emptyStore _ (by decide) rfl
  constructor
  · simpa using h.1
  · simpa using h.2.2.2 (by decide)

end Chopd
